import Mathlib

/-!
Shallow embedding of the message-grouping / action-detection pipeline of the
juta-actions-server repository (src/messageGrouper.js, src/aiProcessor.js),
together with proofs checking the natural-language specification's claims
against the code.

Conventions of the embedding:
* JavaScript strings are Lean `String`s (all data relevant to the claims is
  ASCII, where JS `toLowerCase`, `\w`, `\s` and code-unit comparison agree
  with Lean's `Char` operations).
* JS `number`s holding epoch milliseconds / epoch seconds are `Nat`;
  confidences and similarity ratios are exact rationals `ℚ` (the JS floats
  involved — 0.7, 0.8, and ratios of small integer set sizes — are compared
  only against each other, and every comparison made by the code is
  decidable and exact at these values).
* JS `Set` objects are embedded as duplicate-free `List`s (insertion order
  preserved, membership by equality) or as `Finset`s where only cardinality
  and membership are observed.
* `undefined`/absent values are `Option.none`; JS truthiness tests are
  translated at each site according to the concrete type flowing there
  (in particular `currentTime ? … : 0` in the grouping loop is falsy both
  for `null` and for the number `0`).
* Asynchronous effects (timers, the classification transport, the database
  insert, push notification, live event) are embedded as explicit state
  machines / effect traces; the single-threaded event loop makes these
  deterministic.
-/

namespace JutaActions

/-! ### JS string primitives

All string work is done through structurally recursive functions on
`List Char`, so that every definition evaluates inside the kernel
(`decide`/`rfl`) on concrete inputs. -/

/-- JS `String.prototype.toLowerCase` restricted to ASCII data. -/
def jsToLower (s : String) : String := (s.toList.map Char.toLower).asString

/-- JS regexp class `\w` (no unicode flag): `[A-Za-z0-9_]`. -/
def jsIsWordChar (c : Char) : Bool := c.isAlphanum || c == '_'

/-- JS regexp class `\s` restricted to ASCII whitespace. -/
def jsIsSpaceChar (c : Char) : Bool :=
  c == ' ' || c == '\t' || c == '\n' || c == '\r' || c == '\x0b' || c == '\x0c'

/-- Does `needle` occur as a contiguous subsequence of `hay`? -/
def charsContain (needle : List Char) : List Char → Bool
  | [] => needle.isPrefixOf []
  | c :: cs => needle.isPrefixOf (c :: cs) || charsContain needle cs

/-- JS `message.includes(keyword)`: substring containment. -/
def jsIncludes (s sub : String) : Bool := charsContain sub.toList s.toList

/-- JS `str.replace(/[^\w\s]/g, '')`: delete every non-word, non-space char. -/
def jsStripPunct (s : String) : String :=
  (s.toList.filter (fun c => jsIsWordChar c || jsIsSpaceChar c)).asString

/-- JS `str.replace(/[^\w\s]/g, ' ')`: overwrite every non-word, non-space
char with a space. -/
def jsPunctToSpace (s : String) : String :=
  (s.toList.map (fun c => if jsIsWordChar c || jsIsSpaceChar c then c else ' ')).asString

/-- Split a char list at every char satisfying `p`, keeping empty pieces
(the semantics of JS `split` with a single-char separator). -/
def splitCharsAux (p : Char → Bool) (acc : List Char) : List Char → List String
  | [] => [acc.reverse.asString]
  | c :: cs =>
      if p c then acc.reverse.asString :: splitCharsAux p [] cs
      else splitCharsAux p (c :: acc) cs

/-- JS `str.split(' ')` (split on each single space, keeping empty pieces). -/
def jsSplitSpace (s : String) : List String :=
  splitCharsAux (fun c => c == ' ') [] s.toList

/-- JS `str.split(/\s+/)`. Splitting on every whitespace char differs from
splitting on whitespace *runs* only by extra empty tokens, and every caller
immediately drops tokens of length ≤ 2, so the embedding splits per char. -/
def jsSplitWhitespace (s : String) : List String :=
  splitCharsAux jsIsSpaceChar [] s.toList

/-- Code-unit-wise `<` on char lists (the order JS `Array.prototype.sort()`
uses on ASCII strings). -/
def jsStringLtChars : List Char → List Char → Bool
  | [], [] => false
  | [], _ :: _ => true
  | _ :: _, [] => false
  | a :: as, b :: bs =>
      if a.toNat < b.toNat then true
      else if b.toNat < a.toNat then false
      else jsStringLtChars as bs

/-- Embeds `a ≤ b` in JS default sort order. -/
def jsStringLE (a b : String) : Bool := !jsStringLtChars b.toList a.toList

/-- JS `Array.prototype.sort()` on ASCII strings: a stable sort in
lexicographic order (the engine's sort is stable; any stable sort yields the
same list under a total preorder comparator). -/
def jsSortStrings (l : List String) : List String :=
  l.insertionSort (fun a b => jsStringLE a b = true)

/-! ### Data model (src/messageGrouper.js, src/aiProcessor.js) -/

/-- An incoming chat message (the fields the pipeline reads).
`timestamp` is epoch **seconds**; `msgFrom` embeds the JS field `from`
(a Lean keyword). -/
structure MessageData where
  msgFrom : String
  fromName : String
  chatName : String
  body : String
  timestamp : Nat
  fromMe : Bool
  isGroup : Bool
  deriving Repr, DecidableEq

/-- A candidate action produced by the classifier or the keyword fallback.
The nested `details` payload is carried opaquely by the code and inspected
by none of the checked claims, so it is omitted from the embedding. -/
structure CandidateAction where
  type : String
  description : String
  confidence : ℚ
  originalMessage : Option MessageData
  deriving Repr, DecidableEq

/-- A conversation-history entry (rows loaded from `ai_actions`). -/
structure HistoryEntry where
  type : String
  description : String
  originalMessage : Option MessageData
  deriving Repr, DecidableEq

/-- One recorded action inside a topic cluster. -/
structure TopicActionRec where
  userId : String
  description : String
  deriving Repr, DecidableEq

/-- A group-topic cluster (`loadGroupTopicContext` builds `users` from a JS
`Set`, so the list is duplicate-free). `lastUpdate` is epoch ms. -/
structure TopicCluster where
  type : String
  description : String
  users : List String
  actions : List TopicActionRec
  lastUpdate : Nat
  deriving Repr, DecidableEq

/-! ### Configuration constants (MessageGrouper constructor) -/

def GROUP_DELAY_MS : Nat := 15000
def MAX_GROUP_SIZE : Nat := 5

/-- Threshold 0.8.  JS float literals and float divisions of small integers compare
exactly like the corresponding rationals at every comparison the code makes
(IEEE division is correctly rounded and the operand sizes here are far below
the 2⁻⁵³ precision bound), so thresholds and ratios are embedded as exact
rationals; `mkRat` is used because it evaluates inside the kernel. -/
def DUPLICATE_SIMILARITY_THRESHOLD : ℚ := mkRat 8 10

/-- Threshold 0.7. -/
def GROUP_TOPIC_SIMILARITY_THRESHOLD : ℚ := mkRat 7 10

/-! ### TimeWindowBuffer (`processMessage` / `processGroupedMessages`)

The buffer for one `(userId, chatId)` key is embedded as an explicit state
machine driven by ingestion events.  A message is represented by its
ingestion time (epoch ms of the event-loop clock); the flush trace records
`(flushTime, batch)` pairs. -/

structure BufferState where
  buffer : List Nat
  timerExpiry : Option Nat
  flushes : List (Nat × List Nat)
  deriving Repr, DecidableEq

def initialBufferState : BufferState := ⟨[], none, []⟩

/-- Embeds `processGroupedMessages`: cancel the timer, drain the buffer, no-op when
it is empty, otherwise record a flush at time `t`. -/
def flushBuffer (s : BufferState) (t : Nat) : BufferState :=
  if s.buffer = [] then { s with timerExpiry := none }
  else { buffer := [], timerExpiry := none, flushes := s.flushes ++ [(t, s.buffer)] }

/-- The single-threaded event loop runs a due timer callback before any later
ingestion is handled. -/
def fireTimerIfDue (s : BufferState) (t : Nat) : BufferState :=
  match s.timerExpiry with
  | some e => if e ≤ t then flushBuffer s e else s
  | none => s

/-- Embeds `processMessage` (lines 71–106): push onto the buffer, clear any pending
timer, flush immediately at `MAX_GROUP_SIZE`, otherwise start a fresh
full-delay timer. -/
def processMessage (s : BufferState) (t : Nat) : BufferState :=
  let s := fireTimerIfDue s t
  let s := { s with timerExpiry := none }
  let chatBuffer := s.buffer ++ [t]
  if MAX_GROUP_SIZE ≤ chatBuffer.length then
    { buffer := [], timerExpiry := none,
      flushes := s.flushes ++ [(t, chatBuffer)] }
  else
    { s with buffer := chatBuffer, timerExpiry := some (t + GROUP_DELAY_MS) }

/-- Run a whole trace of ingestion events (given in event-loop time order)
and then let any still-pending timer expire. -/
def runBuffer (events : List Nat) : BufferState :=
  let final := events.foldl processMessage initialBufferState
  match final.timerExpiry with
  | some e => flushBuffer final e
  | none => final

/-! ### SenderGrouper (`groupMessagesByTimeAndSender`, lines 157–197) -/

/-- Grouping key of a message (lines 172–174). -/
def senderKeyOf (message : MessageData) : String :=
  if message.isGroup then
    (if message.fromMe then "me" else "other_" ++ message.fromName)
  else message.msgFrom

/-- Embeds `message.timestamp * 1000` (line 167). -/
def msgTimeMs (message : MessageData) : Nat := message.timestamp * 1000

/-- Loop state of `groupMessagesByTimeAndSender`. -/
structure GroupAcc where
  groups : List (List MessageData)
  currentGroup : List MessageData
  currentSender : Option String
  currentTime : Option Nat
  deriving Repr

/-- Embeds `const timeDiff = currentTime ? messageTime - currentTime : 0`
(line 168).  The ternary is falsy both for `null` and for the number `0`,
hence the inner `if c = 0`. -/
def loopTimeDiff (currentTime : Option Nat) (messageTime : Nat) : Nat :=
  match currentTime with
  | some c => if c = 0 then 0 else messageTime - c
  | none => 0

/-- One iteration of the grouping loop (lines 166–189). -/
def groupStep (acc : GroupAcc) (message : MessageData) : GroupAcc :=
  let messageTime := msgTimeMs message
  let timeDiff : Nat := loopTimeDiff acc.currentTime messageTime
  let senderKey := senderKeyOf message
  if acc.currentSender = some senderKey ∧ timeDiff < 300000 then
    { acc with currentGroup := acc.currentGroup ++ [message],
               currentTime := some messageTime }
  else
    { groups := if acc.currentGroup ≠ [] then acc.groups ++ [acc.currentGroup] else acc.groups,
      currentGroup := [message],
      currentSender := some senderKey,
      currentTime := some messageTime }

/-- Sorting by `(a, b) => a.timestamp - b.timestamp` (line 164).  The JS
engine's sort is stable and the comparator is a total preorder, so any
stable sort is the faithful embedding. -/
def sortByTimestamp (messages : List MessageData) : List MessageData :=
  messages.insertionSort (fun a b => a.timestamp ≤ b.timestamp)

/-- Embeds `groupMessagesByTimeAndSender` (lines 157–197). -/
def groupMessagesByTimeAndSender (messages : List MessageData) : List (List MessageData) :=
  let sorted := sortByTimestamp messages
  let acc := sorted.foldl groupStep ⟨[], [], none, none⟩
  if acc.currentGroup ≠ [] then acc.groups ++ [acc.currentGroup] else acc.groups

/-! ### DuplicateGuard (`createActionSignature`, `filterDuplicateActions`,
`isSimilarToConversationHistory`, `calculateStringSimilarity`) -/

/-- Embeds `createActionSignature` (lines 444–455). -/
def createActionSignature (action : CandidateAction) : String :=
  let descWords :=
    String.intercalate "-"
      (jsSortStrings
        ((((jsSplitSpace (jsStripPunct (jsToLower action.description)))).filter
            (fun word => 2 < word.length)).take 3))
  action.type ++ "-" ++ descWords

/-- JS `Set.prototype.add` on a duplicate-free insertion-ordered list. -/
def setAdd (s : List String) (x : String) : List String :=
  if x ∈ s then s else s ++ [x]

/-- JS `new Set(list)`: duplicate-free list keeping first occurrences in
insertion order. -/
def jsSetOf (l : List String) : List String :=
  l.foldl setAdd []

/-- Embeds `calculateStringSimilarity` (lines 486–494): Jaccard index of the two
space-token sets.  `str.split(' ')` is never the empty list, so the union is
never empty and the division is total; JS `a / b` on these small integers is
the exact rational `mkRat a b`. -/
def calculateStringSimilarity (str1 str2 : String) : ℚ :=
  let words1 := jsSetOf (jsSplitSpace str1)
  let words2 := jsSetOf (jsSplitSpace str2)
  let intersection := words1.filter (fun x => x ∈ words2)
  let union := jsSetOf (words1 ++ words2)
  mkRat intersection.length union.length

/-- Embeds `action.originalMessage && action.originalMessage.fromMe`: `undefined`
when the message snapshot is absent, otherwise the boolean. -/
def fromMeClass (originalMessage : Option MessageData) : Option Bool :=
  originalMessage.map (fun m => m.fromMe)

/-- Embeds `isSimilarToConversationHistory` (lines 457–484). -/
def isSimilarToConversationHistory (action : CandidateAction)
    (conversationHistory : List HistoryEntry) : Bool :=
  let recentActions := conversationHistory.take 5
  recentActions.any fun historyAction =>
    if historyAction.type = action.type then
      if fromMeClass action.originalMessage = fromMeClass historyAction.originalMessage then
        decide (DUPLICATE_SIMILARITY_THRESHOLD <
          calculateStringSimilarity (jsToLower action.description)
            (jsToLower historyAction.description))
      else false
    else false

/-- Embeds `action.originalMessage && action.originalMessage.fromMe === true`. -/
def isOutgoingMessage (action : CandidateAction) : Bool :=
  fromMeClass action.originalMessage = some true

/-- Embeds `filterDuplicateActions` (lines 391–442).  Returns the accepted actions
together with the updated per-user signature set. -/
def filterDuplicateActions (actions : List CandidateAction)
    (userDuplicates : List String) (conversationHistory : List HistoryEntry) :
    List CandidateAction × List String :=
  actions.foldl
    (fun (st : List CandidateAction × List String) action =>
      let (filtered, dups) := st
      if isOutgoingMessage action then
        -- outgoing: always allowed through (after logging), signature recorded
        (filtered ++ [action], setAdd dups (createActionSignature action))
      else
        let signature := createActionSignature action
        if signature ∈ dups then (filtered, dups)
        else if isSimilarToConversationHistory action conversationHistory then (filtered, dups)
        else (filtered ++ [action], setAdd dups signature))
    ([], userDuplicates)

/-! ### GroupTopicTracker (`extractTopicKeywords`, `calculateKeywordOverlap`,
`checkGroupTopicDuplicate`) -/

/-- The stop-word list of `extractTopicKeywords` (line 706). -/
def commonWords : List String :=
  ["the", "and", "or", "but", "in", "on", "at", "to", "for", "of", "with", "by",
   "is", "are", "was", "were", "be", "been", "have", "has", "had", "do", "does",
   "did", "will", "would", "could", "should", "may", "might", "can", "must", "shall"]

/-- Embeds `extractTopicKeywords` (lines 704–713). -/
def extractTopicKeywords (text : String) : List String :=
  (((jsSplitWhitespace (jsPunctToSpace (jsToLower text))).filter
      (fun word => 2 < word.length && !(word ∈ commonWords))).take 10)

/-- Embeds `calculateKeywordOverlap` (lines 715–725). -/
def calculateKeywordOverlap (keywords1 keywords2 : List String) : ℚ :=
  if keywords1.length = 0 ∨ keywords2.length = 0 then 0
  else
    let set1 := jsSetOf keywords1
    let set2 := jsSetOf keywords2
    let intersection := set1.filter (fun x => x ∈ set2)
    let union := jsSetOf (set1 ++ set2)
    mkRat intersection.length union.length

/-- Embeds `checkGroupTopicDuplicate` (lines 673–702); `now` is `Date.now()`. -/
def checkGroupTopicDuplicate (messageData : MessageData)
    (groupTopicContext : List TopicCluster) (userId : String) (now : Nat) : Bool :=
  let messageKeywords := extractTopicKeywords messageData.body
  groupTopicContext.any fun topic =>
    let topicKeywords := extractTopicKeywords topic.description
    let overlap := calculateKeywordOverlap messageKeywords topicKeywords
    if GROUP_TOPIC_SIMILARITY_THRESHOLD < overlap then
      if userId ∈ topic.users then true
      else if 2 ≤ topic.users.length ∧ 2 ≤ topic.actions.length then
        decide (mkRat (now - topic.lastUpdate) (1000 * 60 * 60) < 2)
      else false
    else false

/-- Control flow of `processMessageGroup` (lines 199–252) up to the
classification call: the classifier is invoked iff no message of the group
was already processed and the group-topic duplicate check did not fire.
(`groupTopicContext` is `null` for 1:1 chats; an empty array is truthy.) -/
def processMessageGroupClassifies (existingActionsCount : Nat)
    (combinedMessage : MessageData) (groupTopicContext : Option (List TopicCluster))
    (userId : String) (now : Nat) : Bool :=
  if 0 < existingActionsCount then false
  else
    let isGroupTopicDuplicate :=
      match groupTopicContext with
      | some ctx => combinedMessage.isGroup &&
          checkGroupTopicDuplicate combinedMessage ctx userId now
      | none => false
    !isGroupTopicDuplicate

/-! ### ActionEmitter (`saveAndEmitAction`, lines 496–554)

Embedded as an effect trace: which of the three side effects are attempted,
in order, plus the error (if any) propagated to the caller.  The whole body
sits in one `try`/`catch` whose handler only logs, so no error ever
escapes; a failing `INSERT` aborts the push notification and the live
event.  When the database handle is absent the insert is skipped with a
warning but notification and event still run. -/

inductive SideEffect where
  | persist
  | notifyPush
  | emitLive
  deriving Repr, DecidableEq

def saveAndEmitAction (dbAvailable persistOk : Bool) :
    List SideEffect × Option String :=
  if dbAvailable then
    if persistOk then ([.persist, .notifyPush, .emitLive], none)
    else ([.persist], none)
  else ([.notifyPush, .emitLive], none)

/-- The caller's loop (`processMessageGroup`, lines 240–242): every filtered
action is handed to `saveAndEmitAction` in turn; since the latter never
throws, every sibling action is processed. -/
def processFilteredActions (outcomes : List (Bool × Bool)) : List (List SideEffect) :=
  outcomes.map (fun p => (saveAndEmitAction p.1 p.2).1)

/-! ### AIProcessor (src/aiProcessor.js)

The OpenAI transport and `JSON.parse` are embedded as an oracle outcome:
either the HTTP call threw (transport error), or it returned text that does
not parse as JSON, or it returned a parsed candidate-action array.  What the
code does with each outcome is embedded exactly. -/

inductive ClassifierOutcome where
  | transportError
  | parseFailure
  | parsed (actions : List CandidateAction)
  deriving Repr

/-- The JS reduce `(best, current) => current.confidence > best.confidence ?
current : best` without an initial value (ties keep the earlier element). -/
def reduceBestAction (first : CandidateAction) (rest : List CandidateAction) :
    CandidateAction :=
  rest.foldl (fun best current =>
    if best.confidence < current.confidence then current else best) first

/-- Keyword tables of `fallbackProcessing` (lines 211–453). -/
def timeKeywords : List String :=
  ["remind me", "don\x27t forget", "remember to", "tomorrow", "today", "later",
   "next week", "esok", "monday", "tuesday", "wednesday", "thursday", "friday",
   "saturday", "sunday", "am", "pm", "o\x27clock", "morning", "afternoon",
   "evening", "night"]

def eventKeywords : List String :=
  ["meeting", "appointment", "schedule", "course", "training", "session",
   "conference", "call", "webinar", "workshop", "seminar", "presentation",
   "demo", "interview", "event"]

def taskKeywords : List String :=
  ["need to", "have to", "should", "must", "todo", "task", "complete", "finish",
   "do this", "work on", "handle", "deal with", "take care"]

def noteKeywords : List String :=
  ["note this", "save this", "write down", "remember that", "important",
   "information", "details", "reference", "document", "record"]

def issueKeywords : List String :=
  ["problem", "issue", "not working", "broken", "error", "help", "unstable",
   "couldn\x27t", "failed", "bug", "trouble", "wrong", "stuck", "crash",
   "freeze", "slow", "can\x27t", "won\x27t", "doesn\x27t"]

def businessKeywords : List String :=
  ["customer", "client", "business", "project", "work", "deadline", "proposal",
   "contract", "sale", "revenue", "profit", "marketing", "campaign", "launch"]

def questionKeywords : List String :=
  ["?", "how", "what", "why", "when", "where", "who", "which", "can you",
   "could you", "would you", "should i", "is it", "are you", "do you"]

def learningKeywords : List String :=
  ["learn", "study", "course", "tutorial", "training", "skill", "knowledge",
   "research", "understand", "teach", "education", "book", "read", "practice"]

def financeKeywords : List String :=
  ["money", "pay", "payment", "invoice", "bill", "cost", "price", "budget",
   "expense", "income", "profit", "loss", "investment", "bank", "account"]

def healthKeywords : List String :=
  ["doctor", "appointment", "medicine", "health", "sick", "pain", "exercise",
   "gym", "diet", "nutrition", "wellness", "therapy", "checkup"]

def shoppingKeywords : List String :=
  ["buy", "purchase", "shop", "order", "delivery", "shipping", "product",
   "item", "store", "market", "sale", "discount", "cart"]

def travelKeywords : List String :=
  ["travel", "trip", "flight", "hotel", "booking", "reservation", "ticket",
   "vacation", "holiday", "transport", "uber", "taxi", "airport"]

def creativeKeywords : List String :=
  ["create", "design", "write", "content", "post", "blog", "video", "photo",
   "image", "graphic", "logo", "brand", "creative", "idea", "brainstorm"]

def adminKeywords : List String :=
  ["form", "application", "register", "signup", "paperwork", "document",
   "certificate", "license", "renewal", "submission", "filing", "process"]

/-- Embeds `keywords.some(keyword => message.includes(keyword))`. -/
def anyKeyword (message : String) (keywords : List String) : Bool :=
  keywords.any (fun keyword => jsIncludes message keyword)

/-- Candidate pushed by one category branch of `fallbackProcessing`; only the
fields observed by the claims are carried (the `details` payload is opaque). -/
def mkFallbackAction (type description : String) (confidence : ℚ) : CandidateAction :=
  { type := type, description := description, confidence := confidence,
    originalMessage := none }

/-- The `actions` array accumulated by `fallbackProcessing` (lines 211–470)
before the final best-candidate reduce: deterministic keyword heuristics, one
candidate per matched category, plus the long-message catch-all. -/
def fallbackCandidates (messageData : MessageData) : List CandidateAction :=
  let message := jsToLower messageData.body
  let actions : List CandidateAction := []
  let actions := if anyKeyword message timeKeywords then
    actions ++ [mkFallbackAction "reminder" "Time-based reminder or scheduling needed" (mkRat 8 10)]
    else actions
  let actions := if anyKeyword message eventKeywords then
    actions ++ [mkFallbackAction "event" "Schedule event or meeting" (mkRat 8 10)]
    else actions
  let actions := if anyKeyword message taskKeywords then
    actions ++ [mkFallbackAction "task" "Task or action item identified" (mkRat 75 100)]
    else actions
  let actions := if anyKeyword message noteKeywords then
    actions ++ [mkFallbackAction "note" "Information to save and organize" (mkRat 8 10)]
    else actions
  let actions := if anyKeyword message issueKeywords then
    actions ++ [mkFallbackAction "issue" "Technical or system issue reported" (mkRat 8 10)]
    else actions
  let actions := if anyKeyword message businessKeywords then
    actions ++ [mkFallbackAction "follow_up" "Business or client matter needs attention" (mkRat 75 100)]
    else actions
  let actions := if anyKeyword message questionKeywords then
    actions ++ [mkFallbackAction "communication" "Question requires response" (mkRat 75 100)]
    else actions
  let actions := if anyKeyword message learningKeywords then
    actions ++ [mkFallbackAction "learning" "Learning or educational content" (mkRat 7 10)]
    else actions
  let actions := if anyKeyword message financeKeywords then
    actions ++ [mkFallbackAction "finance" "Financial matter needs attention" (mkRat 8 10)]
    else actions
  let actions := if anyKeyword message healthKeywords then
    actions ++ [mkFallbackAction "health" "Health-related task or reminder" (mkRat 8 10)]
    else actions
  let actions := if anyKeyword message shoppingKeywords then
    actions ++ [mkFallbackAction "shopping" "Shopping or purchase task" (mkRat 7 10)]
    else actions
  let actions := if anyKeyword message travelKeywords then
    actions ++ [mkFallbackAction "travel" "Travel planning or logistics" (mkRat 8 10)]
    else actions
  let actions := if anyKeyword message creativeKeywords then
    actions ++ [mkFallbackAction "creative" "Creative or content creation task" (mkRat 7 10)]
    else actions
  let actions := if anyKeyword message adminKeywords then
    actions ++ [mkFallbackAction "administrative" "Administrative task or paperwork" (mkRat 75 100)]
    else actions
  let actions := if 50 < messageData.body.length ∧ actions.length = 0 then
    actions ++ [mkFallbackAction "note" "Detailed message - likely contains important information" (mkRat 6 10)]
    else actions
  actions

/-- Embeds `fallbackProcessing` (lines 211–482): the single
highest-confidence candidate of the keyword heuristics (earliest on ties) —
with no confidence floor applied. -/
def fallbackProcessing (messageData : MessageData) : List CandidateAction :=
  match fallbackCandidates messageData with
  | [] => []
  | first :: rest => [reduceBestAction first rest]

/-- Embeds `processMessageWithHistory` (lines 14–209).  The history, signature and
topic contexts only shape the prompt text, which the embedding need not
reproduce (spec §1 non-goal); the observable result depends on the message
and the classifier outcome.  On a parsed response: keep candidates with
confidence strictly above 0.7 and return the single best (lines 174–198);
on a response that fails to parse: return `[]` (lines 194–198, inner catch);
on a transport error: run `fallbackProcessing` (lines 200–208). -/
def processMessageWithHistory (messageData : MessageData)
    (outcome : ClassifierOutcome) : List CandidateAction :=
  match outcome with
  | .parsed actions =>
      let highConfidenceActions := actions.filter (fun action => mkRat 7 10 < action.confidence)
      match highConfidenceActions with
      | [] => []
      | first :: rest => [reduceBestAction first rest]
  | .parseFailure => []
  | .transportError => fallbackProcessing messageData

/-! ### Properties used to state the claims -/

/-- A recorded flush `(flushTime, batch)` has a nonempty batch and happened
within the configured delay of the batch's **last** message. -/
def FlushWithinDelayOfLast (p : Nat × List Nat) : Prop :=
  p.2 ≠ [] ∧ ∃ m, p.2.getLast? = some m ∧ p.1 ≤ m + GROUP_DELAY_MS

/-- Invariant of the buffer state machine: every recorded flush is within
the delay of its last message, and a pending timer expires exactly one delay
after the current buffer's last message. -/
def BufferInv (s : BufferState) : Prop :=
  (∀ p ∈ s.flushes, FlushWithinDelayOfLast p) ∧
  (∀ e, s.timerExpiry = some e →
    ∃ m, s.buffer.getLast? = some m ∧ e = m + GROUP_DELAY_MS)

/-- The effective gap the grouping loop computes between a previous message
`a` and the next message `b`: zero when the previous message's millisecond
time is `0` (`currentTime ? … : 0` is falsy at `0`), otherwise the
millisecond difference. -/
def effTimeDiff (a b : MessageData) : Nat :=
  if msgTimeMs a = 0 then 0 else msgTimeMs b - msgTimeMs a

/-- Message `b` continues the run ending in message `a`: same grouping key
and effective gap strictly under 5 minutes. -/
def SameRunStep (a b : MessageData) : Prop :=
  senderKeyOf b = senderKeyOf a ∧ effTimeDiff a b < 300000

/-- Boundary between consecutive runs: the first message of the next run
does not continue the previous run. -/
def RunBoundary (g g' : List MessageData) : Prop :=
  ∀ a b, g.getLast? = some a → g'.head? = some b → ¬ SameRunStep a b

/-- Invariant of the grouping loop relating the accumulator to the prefix of
the (sorted) batch processed so far. -/
def GroupAccInv (processed : List MessageData) (acc : GroupAcc) : Prop :=
  acc.groups.flatten ++ acc.currentGroup = processed ∧
  (∀ g ∈ acc.groups, g ≠ []) ∧
  (∀ m ∈ acc.currentGroup, acc.currentSender = some (senderKeyOf m)) ∧
  (∀ a, acc.currentGroup.getLast? = some a → acc.currentTime = some (msgTimeMs a)) ∧
  (acc.currentGroup = [] → acc.groups = [] ∧ acc.currentSender = none) ∧
  acc.currentGroup.Chain' SameRunStep ∧
  (∀ g ∈ acc.groups, g.Chain' SameRunStep) ∧
  (acc.groups ++ [acc.currentGroup]).Chain' RunBoundary

instance : IsTotal MessageData (fun a b => a.timestamp ≤ b.timestamp) :=
  ⟨fun a b => Nat.le_total a.timestamp b.timestamp⟩

instance : IsTrans MessageData (fun a b => a.timestamp ≤ b.timestamp) :=
  ⟨fun _ _ _ hab hbc => Nat.le_trans hab hbc⟩

/-! ### A spec-side variant, for refinement comparison (claim C7) -/

/-- Stated from the spec's words, NOT from the code: `isSimilarToHistory`
compares the action against "the 5 most recent history entries of the same
type and the same sender-class".  The code instead takes the 5 most recent
entries of *any* type first and only then filters.  This definition exists
solely to be compared with `isSimilarToConversationHistory`. -/
def isSimilarToHistorySpecSide (action : CandidateAction)
    (conversationHistory : List HistoryEntry) : Bool :=
  ((conversationHistory.filter (fun e =>
      e.type = action.type ∧
      fromMeClass action.originalMessage = fromMeClass e.originalMessage)).take 5).any
    fun historyAction =>
      decide (DUPLICATE_SIMILARITY_THRESHOLD <
        calculateStringSimilarity (jsToLower action.description)
          (jsToLower historyAction.description))

/-! ### Concrete fixtures used by witnesses and counterexamples -/

/-- The spec's §8.9 message: "remind me tomorrow at 3pm". -/
def remindMsg : MessageData :=
  { msgFrom := "60123@c.us", fromName := "Ali", chatName := "Ali",
    body := "remind me tomorrow at 3pm", timestamp := 1700000000,
    fromMe := false, isGroup := false }

/-- A message over 50 characters long matching no fallback keyword list. -/
def longBlandMsg : MessageData :=
  { remindMsg with body := "zzzzzzzzzz zzzzzzzzzz zzzzzzzzzz zzzzzzzzzz zzzzzzzzzz" }

/-- A 1:1 message whose timestamp is exactly epoch 0. -/
def epochMsg : MessageData :=
  { msgFrom := "a@c.us", fromName := "A", chatName := "A", body := "one",
    timestamp := 0, fromMe := false, isGroup := false }

/-- Same sender, 400 s (> 5 min) after `epochMsg`. -/
def epochMsgLater : MessageData := { epochMsg with body := "two", timestamp := 400 }

/-- The spec's §8.8 classification result list. -/
def exParsedActions : List CandidateAction :=
  [{ type := "a", description := "", confidence := mkRat 65 100, originalMessage := none },
   { type := "b", description := "", confidence := mkRat 81 100, originalMessage := none },
   { type := "c", description := "", confidence := mkRat 90 100, originalMessage := none }]

/-- The highest-confidence element of `exParsedActions`. -/
def exBestAction : CandidateAction :=
  { type := "c", description := "", confidence := mkRat 90 100, originalMessage := none }

/-- An owner-originated (fromMe) candidate action. -/
def exOutgoingAction : CandidateAction :=
  { type := "task", description := "deploy the server tonight",
    confidence := mkRat 9 10, originalMessage := some { remindMsg with fromMe := true } }

/-- A second owner-originated action with the identical signature. -/
def exOutgoingAction2 : CandidateAction :=
  { exOutgoingAction with description := "deploy the server tonight again soon" }

/-- A non-owner (incoming) candidate action. -/
def exIncomingAction : CandidateAction :=
  { type := "task", description := "submit the quarterly report",
    confidence := mkRat 9 10, originalMessage := some remindMsg }

/-- A second incoming action with identical type and top-3 keywords. -/
def exIncomingAction2 : CandidateAction :=
  { exIncomingAction with description := "submit the quarterly report please" }

/-- Six history entries: the five most recent ones have a different type,
the sixth matches `exIncomingAction` exactly. -/
def exHistorySixEntries : List HistoryEntry :=
  [{ type := "reminder", description := "call the dentist", originalMessage := some remindMsg },
   { type := "reminder", description := "call the dentist", originalMessage := some remindMsg },
   { type := "reminder", description := "call the dentist", originalMessage := some remindMsg },
   { type := "reminder", description := "call the dentist", originalMessage := some remindMsg },
   { type := "reminder", description := "call the dentist", originalMessage := some remindMsg },
   { type := "task", description := "submit the quarterly report", originalMessage := some remindMsg }]

/-- A history entry identical in type, sender class and description to
`exIncomingAction`. -/
def exMatchingHistoryEntry : HistoryEntry :=
  { type := "task", description := "submit the quarterly report",
    originalMessage := some remindMsg }

/-- A group-chat message about a topic already clustered. -/
def exGroupMsg : MessageData :=
  { msgFrom := "60123@c.us", fromName := "Ali", chatName := "Team",
    body := "lunch meeting friday noon", timestamp := 1700000000,
    fromMe := false, isGroup := true }

/-- A topic cluster to which user `u1` already contributed. -/
def exCluster : TopicCluster :=
  { type := "event", description := "lunch meeting friday noon",
    users := ["u1"], actions := [], lastUpdate := 0 }

/-! ## Helper lemmas -/

/-- The initial-value-free JS reduce picks a maximal-confidence element of
`first :: rest`, the earliest one on ties. -/
theorem reduceBestAction_spec (first : CandidateAction) (rest : List CandidateAction) :
    reduceBestAction first rest ∈ first :: rest ∧
    first.confidence ≤ (reduceBestAction first rest).confidence ∧
    ∀ a ∈ rest, a.confidence ≤ (reduceBestAction first rest).confidence := by
  induction rest generalizing first with
  | nil => simp [reduceBestAction]
  | cons b bs ih =>
    by_cases hc : first.confidence < b.confidence
    · have hstep : reduceBestAction first (b :: bs) = reduceBestAction b bs := by
        simp [reduceBestAction, hc]
      obtain ⟨hmem, hle, hall⟩ := ih b
      rw [hstep]
      refine ⟨?_, le_trans hc.le hle, ?_⟩
      · rcases List.mem_cons.mp hmem with h | h
        · simp [h]
        · simp [List.mem_cons.mpr (Or.inr h)]
      · intro a ha
        rcases List.mem_cons.mp ha with h | h
        · exact h ▸ hle
        · exact hall a h
    · have hstep : reduceBestAction first (b :: bs) = reduceBestAction first bs := by
        simp [reduceBestAction, hc]
      obtain ⟨hmem, hle, hall⟩ := ih first
      rw [hstep]
      refine ⟨?_, hle, ?_⟩
      · rcases List.mem_cons.mp hmem with h | h
        · simp [h]
        · simp [List.mem_cons.mpr (Or.inr h)]
      · intro a ha
        rcases List.mem_cons.mp ha with h | h
        · exact h ▸ le_trans (le_of_not_lt hc) hle
        · exact hall a h

/-- Membership in a fold of JS-set inserts. -/
theorem mem_foldl_setAdd (l : List String) (s : List String) (y : String) :
    y ∈ l.foldl setAdd s ↔ y ∈ s ∨ y ∈ l := by
  induction l generalizing s with
  | nil => simp
  | cons x xs ih =>
    rw [List.foldl_cons, ih]
    by_cases hx : x ∈ s
    · simp only [setAdd, if_pos hx, List.mem_cons]
      constructor
      · rintro (h | h)
        · exact Or.inl h
        · exact Or.inr (Or.inr h)
      · rintro (h | h | h)
        · exact Or.inl h
        · exact Or.inl (h ▸ hx)
        · exact Or.inr h
    · simp only [setAdd, if_neg hx, List.mem_append, List.mem_cons, List.mem_singleton]
      tauto

/-- A fold of JS-set inserts preserves duplicate-freedom. -/
theorem nodup_foldl_setAdd (l : List String) (s : List String) (hs : s.Nodup) :
    (l.foldl setAdd s).Nodup := by
  induction l generalizing s with
  | nil => simpa
  | cons x xs ih =>
    rw [List.foldl_cons]
    apply ih
    by_cases hx : x ∈ s
    · simpa [setAdd, hx]
    · simp only [setAdd, if_neg hx]
      simpa [List.nodup_append] using ⟨hs, hx⟩

/-- Membership in the JS-set of a list is membership in the list. -/
theorem jsSetOf_mem {y : String} {l : List String} : y ∈ jsSetOf l ↔ y ∈ l := by
  simp [jsSetOf, mem_foldl_setAdd]

/-- The JS-set of a list is duplicate-free. -/
theorem jsSetOf_nodup (l : List String) : (jsSetOf l).Nodup :=
  nodup_foldl_setAdd l [] (by simp)

/-! ## Claim theorems -/

/-- C2 (counterexample): the claim says a candidate with confidence exactly
0.7 clears the floor, but the code's filter is strict (`> 0.7`, line 179): a
lone candidate at exactly 0.7 yields the empty action list. -/
theorem claim2_counterexample :
    processMessageWithHistory remindMsg
      (.parsed [{ type := "task", description := "call back the client",
                  confidence := mkRat 7 10, originalMessage := none }]) = [] := by
  decide

/-- C2 (amended): for every parsed classification result list, the pipeline
returns the empty list iff no candidate has confidence strictly above 0.7,
otherwise exactly one candidate — one of maximal confidence among those
strictly above 0.7 (the earliest such on ties); a candidate at exactly 0.7
does NOT clear the floor. -/
theorem claim2_confidence_selection (messageData : MessageData)
    (actions : List CandidateAction) :
    (processMessageWithHistory messageData (.parsed actions) = [] ↔
      ∀ a ∈ actions, a.confidence ≤ mkRat 7 10) ∧
    (∀ b, processMessageWithHistory messageData (.parsed actions) = [b] →
      b ∈ actions ∧ mkRat 7 10 < b.confidence ∧
      ∀ a ∈ actions, mkRat 7 10 < a.confidence → a.confidence ≤ b.confidence) ∧
    (processMessageWithHistory messageData (.parsed actions)).length ≤ 1 := by
  have key : processMessageWithHistory messageData (.parsed actions) =
      match actions.filter (fun action => decide (mkRat 7 10 < action.confidence)) with
      | [] => []
      | first :: rest => [reduceBestAction first rest] := rfl
  cases hfc : actions.filter (fun action => decide (mkRat 7 10 < action.confidence)) with
  | nil =>
    have hres : processMessageWithHistory messageData (.parsed actions) = [] := by
      rw [key, hfc]
    have hall : ∀ a ∈ actions, a.confidence ≤ mkRat 7 10 := by
      intro a ha
      by_contra hlt
      have : a ∈ actions.filter (fun action => decide (mkRat 7 10 < action.confidence)) :=
        List.mem_filter.mpr ⟨ha, by simpa using lt_of_not_le hlt⟩
      simp [hfc] at this
    exact ⟨⟨fun _ => hall, fun _ => hres⟩, by simp [hres], by simp [hres]⟩
  | cons first rest =>
    have hres : processMessageWithHistory messageData (.parsed actions) =
        [reduceBestAction first rest] := by rw [key, hfc]
    obtain ⟨hmem, hle, hall⟩ := reduceBestAction_spec first rest
    have hmem' : reduceBestAction first rest ∈
        actions.filter (fun action => decide (mkRat 7 10 < action.confidence)) := by
      rw [hfc]; exact hmem
    have hbest := List.mem_filter.mp hmem'
    refine ⟨?_, ?_, by simp [hres]⟩
    · constructor
      · intro h; rw [hres] at h; cases h
      · intro h
        exact absurd (h _ hbest.1) (not_le.mpr (by simpa using hbest.2))
    · intro b hb
      rw [hres] at hb
      have hb' : reduceBestAction first rest = b := by simpa using hb
      subst hb'
      refine ⟨hbest.1, by simpa using hbest.2, ?_⟩
      intro a ha halt
      have : a ∈ actions.filter (fun action => decide (mkRat 7 10 < action.confidence)) :=
        List.mem_filter.mpr ⟨ha, by simpa using halt⟩
      rw [hfc] at this
      rcases List.mem_cons.mp this with h | h
      · exact h ▸ hle
      · exact hall a h

/-- C2 (witness): on the spec's §8.8 example list the selected candidate is
`c` with confidence 0.9. -/
theorem claim2_witness :
    exBestAction ∈ exParsedActions ∧ mkRat 7 10 < exBestAction.confidence :=
  have h := (claim2_confidence_selection remindMsg exParsedActions).2.1
    exBestAction (by decide)
  ⟨h.1, h.2.1⟩

/-- C3 (counterexample): the claim says malformed/unparseable classifier
output triggers the keyword fallback, but on a parse failure the code
returns `[]` from the inner catch (lines 194–198) without calling
`fallbackProcessing` — which on "remind me tomorrow at 3pm" would have
produced a reminder candidate. -/
theorem claim3_counterexample :
    processMessageWithHistory remindMsg .parseFailure = [] ∧
    (fallbackProcessing remindMsg).map (fun a => a.type) = ["reminder"] :=
  ⟨rfl, by decide⟩

/-- C3 (amended): only a transport error invokes the deterministic keyword
fallback; a parse failure yields the empty list without fallback.  The
fallback returns its single highest-confidence heuristic candidate (earliest
on ties) with NO 0.7 confidence floor re-applied — a long keyword-free
message yields a 0.6-confidence note.  Forcing a transport failure on
"remind me tomorrow at 3pm" yields a reminder-type candidate. -/
theorem claim3_fallback_on_transport_only :
    (∀ messageData, processMessageWithHistory messageData .transportError =
        fallbackProcessing messageData) ∧
    (∀ messageData, processMessageWithHistory messageData .parseFailure = []) ∧
    (∀ messageData b, fallbackProcessing messageData = [b] →
        b ∈ fallbackCandidates messageData ∧
        ∀ a ∈ fallbackCandidates messageData, a.confidence ≤ b.confidence) ∧
    (processMessageWithHistory remindMsg .transportError).map (fun a => a.type) =
        ["reminder"] ∧
    (fallbackProcessing longBlandMsg).map (fun a => a.confidence) = [mkRat 6 10] := by
  refine ⟨fun _ => rfl, fun _ => rfl, ?_, by decide, by decide⟩
  intro messageData b hb
  unfold fallbackProcessing at hb
  cases hfc : fallbackCandidates messageData with
  | nil => rw [hfc] at hb; cases hb
  | cons first rest =>
    rw [hfc] at hb
    have hb' : reduceBestAction first rest = b := by simpa using hb
    obtain ⟨hmem, hle, hall⟩ := reduceBestAction_spec first rest
    subst hb'
    constructor
    · exact hmem
    · intro a ha
      rcases List.mem_cons.mp ha with h | h
      · exact h ▸ hle
      · exact hall a h

/-- C3 (witness): the reminder candidate is among the fallback candidates
for the spec's example message. -/
theorem claim3_witness :
    mkFallbackAction "reminder" "Time-based reminder or scheduling needed"
      (mkRat 8 10) ∈ fallbackCandidates remindMsg :=
  (claim3_fallback_on_transport_only.2.2.1 remindMsg
    (mkFallbackAction "reminder" "Time-based reminder or scheduling needed"
      (mkRat 8 10)) (by decide)).1

/-- C5 (confirmed): owner-originated (fromMe) candidate actions are never
suppressed by `filterDuplicateActions` — two outgoing actions with the same
signature are both accepted (lines 400–415). -/
theorem claim5_owner_permissive (a1 a2 : CandidateAction) (dups : List String)
    (history : List HistoryEntry)
    (h1 : isOutgoingMessage a1 = true) (h2 : isOutgoingMessage a2 = true)
    (_hsig : createActionSignature a1 = createActionSignature a2) :
    (filterDuplicateActions [a1, a2] dups history).1 = [a1, a2] := by
  simp [filterDuplicateActions, h1, h2]

/-- C5 (witness): two concrete owner-originated actions with equal
signatures are both accepted. -/
theorem claim5_witness :
    (filterDuplicateActions [exOutgoingAction, exOutgoingAction2] [] []).1 =
      [exOutgoingAction, exOutgoingAction2] :=
  claim5_owner_permissive exOutgoingAction exOutgoingAction2 [] []
    (by decide) (by decide) (by decide)

/-- C6 (confirmed): a non-owner action whose signature (type + first three
content words longer than 2 chars of the lowercased punctuation-stripped
description, sorted alphabetically) is already in the user's rolling set is
suppressed, leaving state unchanged; in particular of two incoming actions
with identical type and top-3 keywords, the second is suppressed. -/
theorem claim6_exact_duplicate_suppression :
    (∀ action rest dups history,
        isOutgoingMessage action = false →
        createActionSignature action ∈ dups →
        filterDuplicateActions (action :: rest) dups history =
          filterDuplicateActions rest dups history) ∧
    (∀ a1 a2 history,
        isOutgoingMessage a1 = false → isOutgoingMessage a2 = false →
        createActionSignature a1 = createActionSignature a2 →
        isSimilarToConversationHistory a1 history = false →
        (filterDuplicateActions [a1, a2] [] history).1 = [a1]) := by
  constructor
  · intro action rest dups history hout hmem
    simp [filterDuplicateActions, hout, hmem]
  · intro a1 a2 history h1 h2 hsig hsim
    simp [filterDuplicateActions, h1, h2, hsim, setAdd, hsig]

/-- C6 (witness): of two concrete incoming actions with identical type and
top-3 keywords, only the first survives. -/
theorem claim6_witness :
    (filterDuplicateActions [exIncomingAction, exIncomingAction2] [] []).1 =
      [exIncomingAction] :=
  claim6_exact_duplicate_suppression.2 exIncomingAction exIncomingAction2 []
    (by decide) (by decide) (by decide) (by decide)

/-- C9 (counterexample): the claim says a persistence failure is surfaced to
the calling message-processing loop; in the code the whole body of
`saveAndEmitAction` sits in a `try`/`catch` whose handler only logs
(lines 551–553), so the caller sees a normal return (`none` in the
error component), not an error. -/
theorem claim9_counterexample :
    saveAndEmitAction true false = ([SideEffect.persist], none) := rfl

/-- C9 (amended): if persistence fails, neither the push notification nor
the live event is attempted, and the three side effects, when they occur,
happen in the order persist → push → emit; but the error is caught and
logged inside `saveAndEmitAction` itself and never propagated to the
message-processing loop, which therefore continues with every remaining
action. -/
theorem claim9_persist_failure_aborts_silently :
    saveAndEmitAction true false = ([SideEffect.persist], none) ∧
    (saveAndEmitAction true true).1 =
      [SideEffect.persist, SideEffect.notifyPush, SideEffect.emitLive] ∧
    (∀ dbAvailable persistOk, (saveAndEmitAction dbAvailable persistOk).2 = none) ∧
    (∀ outcomes, (processFilteredActions outcomes).length = outcomes.length) := by
  refine ⟨rfl, rfl, ?_, ?_⟩
  · intro dbAvailable persistOk
    cases dbAvailable <;> cases persistOk <;> rfl
  · intro outcomes
    simp [processFilteredActions]

/-- C7 (counterexample): the claim filters to same-type, same-class entries
first and then takes the 5 most recent of those; the code takes the 5 most
recent entries of any type first (line 458) and only then filters.  With
five recent reminder-type entries in front of an exactly-matching task-type
entry, the code does not suppress while the claim's reading would. -/
theorem claim7_counterexample :
    isSimilarToConversationHistory exIncomingAction exHistorySixEntries = false ∧
    isSimilarToHistorySpecSide exIncomingAction exHistorySixEntries = true := by
  constructor <;> decide

/-- C7 (amended): a candidate action is suppressed by the history-similarity
check iff, among the 5 most recent conversation-history entries of ANY type
(taken first), some entry has the same action type, the same sender class
(`undefined` classes compare equal, absent snapshots differ from booleans),
and Jaccard word-set similarity strictly above 0.8 between the lowercased,
space-tokenized descriptions. -/
theorem claim7_history_similarity_iff (action : CandidateAction)
    (conversationHistory : List HistoryEntry) :
    isSimilarToConversationHistory action conversationHistory = true ↔
    ∃ e ∈ conversationHistory.take 5, e.type = action.type ∧
      fromMeClass action.originalMessage = fromMeClass e.originalMessage ∧
      DUPLICATE_SIMILARITY_THRESHOLD <
        calculateStringSimilarity (jsToLower action.description)
          (jsToLower e.description) := by
  unfold isSimilarToConversationHistory
  rw [List.any_eq_true]
  constructor
  · rintro ⟨e, he, hpred⟩
    by_cases h1 : e.type = action.type
    · by_cases h2 : fromMeClass action.originalMessage = fromMeClass e.originalMessage
      · refine ⟨e, he, h1, h2, ?_⟩
        simpa [h1, h2] using hpred
      · simp [h1, h2] at hpred
    · simp [h1] at hpred
  · rintro ⟨e, he, h1, h2, h3⟩
    exact ⟨e, he, by simp [h1, h2, h3]⟩

/-- C7 (witness): an exactly matching entry within the 5 most recent does
trigger suppression. -/
theorem claim7_witness :
    isSimilarToConversationHistory exIncomingAction [exMatchingHistoryEntry] = true :=
  (claim7_history_similarity_iff exIncomingAction [exMatchingHistoryEntry]).mpr
    ⟨exMatchingHistoryEntry, by decide, by decide, by decide, by decide⟩

/-- C8 (confirmed): the group-topic duplicate check fires iff some cluster
has description keyword-overlap with the message body strictly above 0.7 and
either the acting user already contributed to it, or it has ≥ 2 distinct
users and ≥ 2 actions with its last update within the past 2 hours; and for
a group message a duplicate verdict skips the group before classification. -/
theorem claim8_group_topic_duplicate_iff (messageData : MessageData)
    (groupTopicContext : List TopicCluster) (userId : String) (now : Nat) :
    (checkGroupTopicDuplicate messageData groupTopicContext userId now = true ↔
      ∃ topic ∈ groupTopicContext,
        GROUP_TOPIC_SIMILARITY_THRESHOLD <
          calculateKeywordOverlap (extractTopicKeywords messageData.body)
            (extractTopicKeywords topic.description) ∧
        (userId ∈ topic.users ∨
          (2 ≤ topic.users.length ∧ 2 ≤ topic.actions.length ∧
            mkRat (now - topic.lastUpdate) (1000 * 60 * 60) < 2))) ∧
    (messageData.isGroup = true →
      checkGroupTopicDuplicate messageData groupTopicContext userId now = true →
      processMessageGroupClassifies 0 messageData (some groupTopicContext)
        userId now = false) := by
  constructor
  · unfold checkGroupTopicDuplicate
    rw [List.any_eq_true]
    constructor
    · rintro ⟨topic, ht, hpred⟩
      by_cases h1 : GROUP_TOPIC_SIMILARITY_THRESHOLD <
          calculateKeywordOverlap (extractTopicKeywords messageData.body)
            (extractTopicKeywords topic.description)
      · by_cases h2 : userId ∈ topic.users
        · exact ⟨topic, ht, h1, Or.inl h2⟩
        · by_cases h3 : 2 ≤ topic.users.length ∧ 2 ≤ topic.actions.length
          · refine ⟨topic, ht, h1, Or.inr ⟨h3.1, h3.2, ?_⟩⟩
            simpa [h1, h2, h3] using hpred
          · simp [h1, h2, h3] at hpred
      · simp [h1] at hpred
    · rintro ⟨topic, ht, h1, h2⟩
      refine ⟨topic, ht, ?_⟩
      rcases h2 with h2 | ⟨hu, ha, hr⟩
      · simp [h1, h2]
      · by_cases hmem : userId ∈ topic.users
        · simp [h1, hmem]
        · simp [h1, hmem, hu, ha, hr]
  · intro hgroup hdup
    simp [processMessageGroupClassifies, hgroup, hdup]

/-- C8 (witness): a user who already contributed to an overlapping cluster
is suppressed, and the group is skipped before classification. -/
theorem claim8_witness :
    processMessageGroupClassifies 0 exGroupMsg (some [exCluster]) "u1" 1000 = false :=
  (claim8_group_topic_duplicate_iff exGroupMsg [exCluster] "u1" 1000).2
    (by decide) (by decide)

/-- C10 (confirmed): the keyword-overlap function is total and always lands
in [0, 1]; it is exactly 0 whenever either keyword list is empty (no
division by zero); consequently a message whose body yields no extractable
keywords is never classified as a group-topic duplicate. -/
theorem claim10_overlap_total_safe :
    (∀ keywords1 keywords2, 0 ≤ calculateKeywordOverlap keywords1 keywords2 ∧
        calculateKeywordOverlap keywords1 keywords2 ≤ 1) ∧
    (∀ keywords2, calculateKeywordOverlap [] keywords2 = 0) ∧
    (∀ keywords1, calculateKeywordOverlap keywords1 [] = 0) ∧
    (∀ messageData groupTopicContext userId now,
        extractTopicKeywords messageData.body = [] →
        checkGroupTopicDuplicate messageData groupTopicContext userId now = false) := by
  have hempty2 : ∀ keywords2, calculateKeywordOverlap [] keywords2 = 0 := by
    intro keywords2; simp [calculateKeywordOverlap]
  refine ⟨?_, hempty2, ?_, ?_⟩
  · intro keywords1 keywords2
    unfold calculateKeywordOverlap
    split
    · norm_num
    · rename_i hne
      push_neg at hne
      have hk1 : keywords1 ≠ [] := by
        intro h; exact hne.1 (by simp [h])
      have hnd : ((jsSetOf keywords1).filter
          (fun x => decide (x ∈ jsSetOf keywords2))).Nodup :=
        (jsSetOf_nodup keywords1).filter _
      have hsubset : (jsSetOf keywords1).filter
          (fun x => decide (x ∈ jsSetOf keywords2)) ⊆
          jsSetOf (jsSetOf keywords1 ++ jsSetOf keywords2) := by
        intro y hy
        exact jsSetOf_mem.mpr
          (List.mem_append_left _ (List.mem_of_mem_filter hy))
      have hlen : ((jsSetOf keywords1).filter
          (fun x => decide (x ∈ jsSetOf keywords2))).length ≤
          (jsSetOf (jsSetOf keywords1 ++ jsSetOf keywords2)).length :=
        (hnd.subperm hsubset).length_le
      have hpos : 0 < (jsSetOf (jsSetOf keywords1 ++ jsSetOf keywords2)).length := by
        obtain ⟨y, hy⟩ := List.exists_mem_of_ne_nil keywords1 hk1
        have : y ∈ jsSetOf (jsSetOf keywords1 ++ jsSetOf keywords2) :=
          jsSetOf_mem.mpr (List.mem_append_left _ (jsSetOf_mem.mpr hy))
        exact List.length_pos.mpr (List.ne_nil_of_mem this)
      rw [Rat.mkRat_eq_div]
      constructor
      · positivity
      · rw [div_le_one (by exact_mod_cast hpos)]
        exact_mod_cast hlen
  · intro keywords1
    cases keywords1 <;> simp [calculateKeywordOverlap]
  · intro messageData groupTopicContext userId now h
    unfold checkGroupTopicDuplicate
    rw [List.any_eq_false]
    intro topic _
    rw [h]
    simp only [hempty2]
    have hlt : ¬ (GROUP_TOPIC_SIMILARITY_THRESHOLD < (0 : ℚ)) := by decide
    simp [hlt]

/-- C10 (witness): a body of only stop-words and short tokens yields no
keywords, and such a message is never a group-topic duplicate. -/
theorem claim10_witness :
    checkGroupTopicDuplicate { exGroupMsg with body := "to be or" }
      [exCluster] "u9" 1000 = false :=
  claim10_overlap_total_safe.2.2.2 { exGroupMsg with body := "to be or" }
    [exCluster] "u9" 1000 (by decide)

/-- Flushing preserves the buffer invariant provided the flush time is
within the delay of the buffer's last message. -/
theorem bufferInv_flushBuffer (s : BufferState) (t : Nat) (h : BufferInv s)
    (ht : ∀ m, s.buffer.getLast? = some m → t ≤ m + GROUP_DELAY_MS) :
    BufferInv (flushBuffer s t) := by
  unfold flushBuffer
  split
  · exact ⟨h.1, by simp⟩
  · rename_i hb
    refine ⟨?_, by simp⟩
    intro p hp
    rcases List.mem_append.mp hp with h1 | h1
    · exact h.1 p h1
    · have hp' : p = (t, s.buffer) := by simpa using h1
      subst hp'
      obtain ⟨m, hm⟩ : ∃ m, s.buffer.getLast? = some m := by
        cases hl : s.buffer.getLast? with
        | none => exact absurd (List.getLast?_eq_none_iff.mp hl) hb
        | some m => exact ⟨m, rfl⟩
      exact ⟨hb, m, hm, ht m hm⟩

/-- Firing a due timer preserves the buffer invariant. -/
theorem bufferInv_fireTimerIfDue (s : BufferState) (t : Nat) (h : BufferInv s) :
    BufferInv (fireTimerIfDue s t) := by
  unfold fireTimerIfDue
  split
  · rename_i e hte
    split
    · apply bufferInv_flushBuffer s e h
      intro m hm
      obtain ⟨m', hm', he⟩ := h.2 e hte
      rw [hm] at hm'
      cases hm'
      exact he.le
    · exact h
  · exact h

/-- Ingesting one message preserves the buffer invariant. -/
theorem bufferInv_processMessage (s : BufferState) (t : Nat) (h : BufferInv s) :
    BufferInv (processMessage s t) := by
  have h1 : BufferInv (fireTimerIfDue s t) := bufferInv_fireTimerIfDue s t h
  simp only [processMessage]
  split
  · refine ⟨?_, by simp⟩
    intro p hp
    rcases List.mem_append.mp hp with hp1 | hp1
    · exact h1.1 p hp1
    · have hp' : p = (t, (fireTimerIfDue s t).buffer ++ [t]) := by simpa using hp1
      subst hp'
      exact ⟨by simp, t, List.getLast?_concat _, Nat.le_add_right t GROUP_DELAY_MS⟩
  · refine ⟨h1.1, ?_⟩
    intro e he
    have he' : e = t + GROUP_DELAY_MS := by
      simpa using he.symm
    exact ⟨t, List.getLast?_concat _, he'⟩

/-- C1 (counterexample): with the 15 s delay, two ingests 10 s apart produce
a single flush at t = 25 s — 25 s after the first unflushed message, beyond
the configured delay.  The claim says a later message "does not reset the
full delay window (a new timer is started only if none is pending)", but
`processMessage` clears any pending timer (lines 87–90) and starts a fresh
full-delay timer (lines 99–103) on every ingest. -/
theorem claim1_counterexample :
    runBuffer [0, 10000] =
      { buffer := [], timerExpiry := none, flushes := [(25000, [0, 10000])] } ∧
    ¬ (25000 ≤ 0 + GROUP_DELAY_MS) := by
  constructor <;> decide

/-- C1 (amended): every ingest cancels any pending timer and starts a fresh
full-delay timer (or flushes immediately at the max group size), so every
flush of the buffer state machine occurs within the configured delay of the
**last** message of its batch; the delay from the *first* unflushed message
is unbounded while messages keep arriving before expiry.  (For messages
arriving slower than the delay threshold every batch is a single message, so
first = last and the original bound holds in that special case.) -/
theorem claim1_flush_within_delay_of_last (events : List Nat)
    (p : Nat × List Nat) (hp : p ∈ (runBuffer events).flushes) :
    FlushWithinDelayOfLast p := by
  have hfold : ∀ (l : List Nat) (s : BufferState), BufferInv s →
      BufferInv (l.foldl processMessage s) := by
    intro l
    induction l with
    | nil => intro s hs; exact hs
    | cons x xs ih =>
      intro s hs
      exact ih (processMessage s x) (bufferInv_processMessage s x hs)
  have hinv : BufferInv (events.foldl processMessage initialBufferState) :=
    hfold events initialBufferState
      ⟨by simp [initialBufferState], by simp [initialBufferState]⟩
  have hrun : runBuffer events =
      match (events.foldl processMessage initialBufferState).timerExpiry with
      | some e => flushBuffer (events.foldl processMessage initialBufferState) e
      | none => events.foldl processMessage initialBufferState := rfl
  revert hp
  rw [hrun]
  cases hte : (events.foldl processMessage initialBufferState).timerExpiry with
  | none => exact fun hp => hinv.1 p hp
  | some e =>
    intro hp
    refine (bufferInv_flushBuffer _ e hinv ?_).1 p hp
    intro m hm
    obtain ⟨m', hm', he⟩ := hinv.2 e hte
    rw [hm] at hm'
    cases hm'
    exact he.le

/-- C1 (witness): on the two-ingest trace the recorded flush at 25 s is
within the delay of the batch's last message (ingested at 10 s). -/
theorem claim1_witness : 25000 ≤ 10000 + GROUP_DELAY_MS := by
  obtain ⟨-, m, hm, hle⟩ :=
    claim1_flush_within_delay_of_last [0, 10000] (25000, [0, 10000]) (by decide)
  have hm' : (10000 : Nat) = m := by simpa using hm
  subst hm'
  exact hle

/-- The loop's time difference against a known previous message is the
effective gap. -/
theorem loopTimeDiff_eq_effTimeDiff (a b : MessageData) :
    loopTimeDiff (some (msgTimeMs a)) (msgTimeMs b) = effTimeDiff a b := rfl

/-- One grouping-loop iteration preserves the loop invariant. -/
theorem groupAccInv_step (processed : List MessageData) (acc : GroupAcc)
    (message : MessageData) (h : GroupAccInv processed acc) :
    GroupAccInv (processed ++ [message]) (groupStep acc message) := by
  obtain ⟨hjoin, hne, hsender, htime, hempty, hchaincur, hchaingr, hbound⟩ := h
  simp only [groupStep]
  split
  · rename_i hcond
    have hcur_ne : acc.currentGroup ≠ [] := by
      intro hc
      rw [(hempty hc).2] at hcond
      exact absurd hcond.1 (by simp)
    obtain ⟨last, hlast⟩ : ∃ a, acc.currentGroup.getLast? = some a := by
      cases hl : acc.currentGroup.getLast? with
      | none => exact absurd (List.getLast?_eq_none_iff.mp hl) hcur_ne
      | some a => exact ⟨a, rfl⟩
    have hctime : acc.currentTime = some (msgTimeMs last) := htime last hlast
    have hlastmem : last ∈ acc.currentGroup := List.mem_of_getLast?_eq_some hlast
    have hkey : senderKeyOf message = senderKeyOf last := by
      have h1 := hsender last hlastmem
      rw [h1] at hcond
      exact (Option.some.injEq _ _ ▸ hcond.1 : _ = _).symm
    have hdiff : effTimeDiff last message < 300000 := by
      have h2 := hcond.2
      rw [hctime, loopTimeDiff_eq_effTimeDiff] at h2
      exact h2
    have hstep : SameRunStep last message := ⟨hkey, hdiff⟩
    refine ⟨?_, hne, ?_, ?_, ?_, ?_, hchaingr, ?_⟩
    · show acc.groups.flatten ++ (acc.currentGroup ++ [message]) = processed ++ [message]
      rw [← List.append_assoc, hjoin]
    · intro m hm
      rcases List.mem_append.mp hm with hm | hm
      · exact hsender m hm
      · have hm' : m = message := by simpa using hm
        subst hm'
        exact hcond.1
    · intro a ha
      rw [List.getLast?_concat] at ha
      cases ha
      rfl
    · intro hc
      exact absurd hc (by simp)
    · refine List.Chain'.append hchaincur (List.chain'_singleton message) ?_
      intro x hx y hy
      have hx' : x = last := by rw [hlast] at hx; exact (by simpa using hx : last = x).symm
      have hy' : y = message := (by simpa using hy : message = y).symm
      subst hx'; subst hy'
      exact hstep
    · rw [List.chain'_append] at hbound ⊢
      refine ⟨hbound.1, List.chain'_singleton _, ?_⟩
      intro x hx y hy
      have hy' : y = acc.currentGroup ++ [message] :=
        (by simpa using hy : acc.currentGroup ++ [message] = y).symm
      subst hy'
      have hb := hbound.2.2 x hx acc.currentGroup (by simp)
      intro a b hga hhb
      have hhb' : acc.currentGroup.head? = some b := by
        rwa [List.head?_append_of_ne_nil _ hcur_ne] at hhb
      exact hb a b hga hhb'
  · rename_i hcond
    have hbd : RunBoundary acc.currentGroup [message] := by
      intro a b hga hhb
      have hb' : b = message := (by simpa using hhb : message = b).symm
      subst hb'
      rintro ⟨hk, hd⟩
      apply hcond
      have hamem : a ∈ acc.currentGroup := List.mem_of_getLast?_eq_some hga
      constructor
      · rw [hsender a hamem, hk]
      · rw [htime a hga, loopTimeDiff_eq_effTimeDiff]
        exact hd
    by_cases hc : acc.currentGroup = []
    · obtain ⟨hg, -⟩ := hempty hc
      rw [if_neg (by simpa using hc)]
      have hproc : processed = [] := by
        rw [hg, hc] at hjoin
        simpa using hjoin.symm
      refine ⟨?_, hne, ?_, ?_, ?_, List.chain'_singleton _, hchaingr, ?_⟩
      · rw [hproc, hg]; simp
      · intro m hm
        have hm' : m = message := by simpa using hm
        subst hm'; rfl
      · intro a ha
        have ha' : message = a := by simpa using ha
        subst ha'; rfl
      · intro hcc; cases hcc
      · rw [hg]
        exact List.chain'_singleton _
    · rw [if_pos (by simpa using hc)]
      refine ⟨?_, ?_, ?_, ?_, ?_, List.chain'_singleton _, ?_, ?_⟩
      · show (acc.groups ++ [acc.currentGroup]).flatten ++ [message] = processed ++ [message]
        rw [List.flatten_append]
        simpa using congrArg (· ++ [message]) hjoin
      · intro g hg
        rcases List.mem_append.mp hg with hg | hg
        · exact hne g hg
        · have hg' : g = acc.currentGroup := by simpa using hg
          subst hg'; exact hc
      · intro m hm
        have hm' : m = message := by simpa using hm
        subst hm'; rfl
      · intro a ha
        have ha' : message = a := by simpa using ha
        subst ha'; rfl
      · intro hcc; cases hcc
      · intro g hg
        rcases List.mem_append.mp hg with hg | hg
        · exact hchaingr g hg
        · have hg' : g = acc.currentGroup := by simpa using hg
          subst hg'; exact hchaincur
      · rw [List.chain'_append]
        refine ⟨hbound, List.chain'_singleton _, ?_⟩
        intro x hx y hy
        have hx' : x = acc.currentGroup := by
          rw [List.getLast?_concat] at hx
          exact (by simpa using hx : acc.currentGroup = x).symm
        have hy' : y = [message] := (by simpa using hy : [message] = y).symm
        subst hx'; subst hy'
        exact hbd

/-- C4 (counterexample): the claim says a new run starts exactly when the
key changes or the gap reaches 5 minutes; but after a message with
timestamp exactly 0 the loop's `currentTime ? … : 0` is falsy (line 168), so
the computed gap is 0 and a same-sender message 400 s later is kept in the
same run. -/
theorem claim4_counterexample :
    groupMessagesByTimeAndSender [epochMsg, epochMsgLater] =
      [[epochMsg, epochMsgLater]] ∧
    senderKeyOf epochMsgLater = senderKeyOf epochMsg ∧
    300000 ≤ msgTimeMs epochMsgLater - msgTimeMs epochMsg := by
  refine ⟨by decide, by decide, by decide⟩

/-- C4 (amended): the runs partition the batch exactly — their concatenation
is the timestamp-sorted batch, a permutation of the batch, so every message
appears exactly once; every run is nonempty and internally ordered by
timestamp ascending; consecutive messages within a run share the grouping
key with effective gap under 5 minutes, and consecutive runs are separated
by a key change or an effective gap of at least 5 minutes — where the
effective gap counts as 0 whenever the previous message's millisecond
timestamp is exactly 0 (the epoch-0 falsiness of `currentTime`). -/
theorem claim4_run_partition (messages : List MessageData) :
    (groupMessagesByTimeAndSender messages).flatten = sortByTimestamp messages ∧
    (sortByTimestamp messages).Perm messages ∧
    (∀ g ∈ groupMessagesByTimeAndSender messages, g ≠ []) ∧
    (∀ g ∈ groupMessagesByTimeAndSender messages,
        g.Chain' (fun a b => a.timestamp ≤ b.timestamp)) ∧
    (∀ g ∈ groupMessagesByTimeAndSender messages, g.Chain' SameRunStep) ∧
    (groupMessagesByTimeAndSender messages).Chain' RunBoundary := by
  have hfold : ∀ (l processed : List MessageData) (acc : GroupAcc),
      GroupAccInv processed acc → GroupAccInv (processed ++ l) (l.foldl groupStep acc) := by
    intro l
    induction l with
    | nil => intro processed acc h; simpa using h
    | cons x xs ih =>
      intro processed acc h
      have h1 := groupAccInv_step processed acc x h
      have h2 := ih (processed ++ [x]) _ h1
      simpa [List.append_assoc] using h2
  have hinit : GroupAccInv [] ⟨[], [], none, none⟩ := by
    refine ⟨by simp, by simp, by simp, ?_, by simp, List.chain'_nil, by simp, ?_⟩
    · intro a ha; cases ha
    · exact List.chain'_singleton ([] : List MessageData)
  have hinv := hfold (sortByTimestamp messages) [] _ hinit
  rw [List.nil_append] at hinv
  obtain ⟨hjoin, hne, -, -, hempty, hchaincur, hchaingr, hbound⟩ := hinv
  have hdef : groupMessagesByTimeAndSender messages =
      if ((sortByTimestamp messages).foldl groupStep ⟨[], [], none, none⟩).currentGroup ≠ [] then
        ((sortByTimestamp messages).foldl groupStep ⟨[], [], none, none⟩).groups ++
          [((sortByTimestamp messages).foldl groupStep ⟨[], [], none, none⟩).currentGroup]
      else ((sortByTimestamp messages).foldl groupStep ⟨[], [], none, none⟩).groups := rfl
  have hperm : (sortByTimestamp messages).Perm messages :=
    List.perm_insertionSort _ messages
  have hsorted : (sortByTimestamp messages).Sorted (fun a b => a.timestamp ≤ b.timestamp) :=
    List.sorted_insertionSort _ messages
  by_cases hc : ((sortByTimestamp messages).foldl groupStep ⟨[], [], none, none⟩).currentGroup = []
  · obtain ⟨hg, -⟩ := hempty hc
    have hruns : groupMessagesByTimeAndSender messages = [] := by
      rw [hdef, if_neg (by simpa using hc), hg]
    have hflat : (groupMessagesByTimeAndSender messages).flatten = sortByTimestamp messages := by
      rw [hruns]
      rw [hg, hc] at hjoin
      simpa using hjoin
    rw [hruns] at hflat ⊢
    exact ⟨hflat, hperm, by simp, by simp, by simp, List.chain'_nil⟩
  · have hruns : groupMessagesByTimeAndSender messages =
        ((sortByTimestamp messages).foldl groupStep ⟨[], [], none, none⟩).groups ++
          [((sortByTimestamp messages).foldl groupStep ⟨[], [], none, none⟩).currentGroup] := by
      rw [hdef, if_pos (by simpa using hc)]
    have hflat : (groupMessagesByTimeAndSender messages).flatten = sortByTimestamp messages := by
      rw [hruns, List.flatten_append]
      simpa using hjoin
    refine ⟨hflat, hperm, ?_, ?_, ?_, ?_⟩
    · intro g hg
      rw [hruns] at hg
      rcases List.mem_append.mp hg with hg | hg
      · exact hne g hg
      · rw [List.mem_singleton.mp hg]; exact hc
    · intro g hg
      have hsub : List.Sublist g (groupMessagesByTimeAndSender messages).flatten :=
        List.sublist_flatten_of_mem hg
      rw [hflat] at hsub
      exact (hsorted.sublist hsub).chain'
    · intro g hg
      rw [hruns] at hg
      rcases List.mem_append.mp hg with hg | hg
      · exact hchaingr g hg
      · rw [List.mem_singleton.mp hg]; exact hchaincur
    · rw [hruns]
      exact hbound

/-- C4 (witness): the two-message batch with epoch-0 first message is one
nonempty run containing both. -/
theorem claim4_witness : ([epochMsg, epochMsgLater] : List MessageData) ≠ [] :=
  (claim4_run_partition [epochMsg, epochMsgLater]).2.2.1
    [epochMsg, epochMsgLater] (by decide)

end JutaActions
